import Mathlib

/-!
Verification of the configuration model in `scripts/util.py` (slurm-gcp).

The development shallowly embeds the dynamic values manipulated by the
module (`None`, strings, ints, bools, lists, plain `dict`s and the
converted `NSDict` namespaces) as the inductive type `Value`, and
translates `NSDict.__init__`'s recursive conversion, `Config.new_config`,
`Config.save_config`, `Config.load_config`, the `region` property, the
`instance_type` factory and the `cached_property` descriptor into
executable Lean functions over that type.  Fallible Python code (code
that can raise `TypeError`, `KeyError`, `AttributeError`) is modelled
with `Except String`.
-/

set_option maxHeartbeats 1000000

namespace SlurmGcpUtil

/-- Dynamic values of the embedded fragment of `util.py`.  `dict` is a raw
(unconverted) Python mapping, `nsdict` is a converted `NSDict`/`Config`
namespace (both are insertion-ordered association lists of string keys);
the module distinguishes them only by whether `NSDict.__init__`'s
conversion has been applied. -/
inductive Value where
  | none : Value
  | str : String → Value
  | int : Int → Value
  | bool : Bool → Value
  | list : List Value → Value
  | dict : List (String × Value) → Value
  | nsdict : List (String × Value) → Value

/-- Ordered string-keyed entries backing a `dict`/`NSDict`. -/
abbrev Entries := List (String × Value)

/-- Python truthiness (`bool(v)`) for the embedded values: `None`, empty
strings, zero, `False` and empty containers are falsy. -/
def truthy : Value → Bool
  | Value.none => false
  | Value.str s => s ≠ ""
  | Value.int n => n ≠ 0
  | Value.bool b => b
  | Value.list xs => ¬ xs.isEmpty
  | Value.dict kvs => ¬ kvs.isEmpty
  | Value.nsdict kvs => ¬ kvs.isEmpty

/-- Python `a or b`: `a` if truthy, else `b`. -/
def pyOr (a b : Value) : Value :=
  if truthy a then a else b

/-- Dict assignment `d[k] = v`: replace the value at the (unique) existing
key, else append the new key at the end — Python dict insertion-order
semantics. -/
def setEntry : Entries → String → Value → Entries
  | [], k, v => [(k, v)]
  | (k', v') :: rest, k, v =>
      if k' = k then (k', v) :: rest else (k', v') :: setEntry rest k v

/-- Sequential `d.pop(k, default)` calls for each key in `ks`: remove those
keys (keys are unique in a Python dict, so filtering removes each at most
once). -/
def popKeys (kvs : Entries) (ks : List String) : Entries :=
  kvs.filter (fun kv => ¬ ks.contains kv.1)

/-- Attribute read on a `Config`: `self.__dict__ = self` aliases keys and
attributes, and `Config.__getattr__` (util.py line 271) returns `None`
for any name not found, so the read never fails.  (Class-level names such
as `TYPES` or the methods are resolved through the class and are outside
this model.) -/
def configGetattr (cfg : Entries) (name : String) : Value :=
  (List.lookup name cfg).getD Value.none

/-- Key read `cfg[name]` on a `Config`/`NSDict`: plain `OrderedDict`
subscription, which raises `KeyError` when the key is missing (neither
class defines `__missing__`; `__getattr__` only intercepts attribute
access). -/
def configGetitem (cfg : Entries) (name : String) : Except String Value :=
  match List.lookup name cfg with
  | some v => Except.ok v
  | Option.none => Except.error "KeyError"

/-- Attribute read on an arbitrary embedded value, as used for
`p.network_storage` / `netstore.server_ip` in `new_config`: nested
mappings inside a `Config` were converted with `type(self)`, i.e. they are
`Config` instances, so a missing attribute yields `None`; any non-mapping
value raises `AttributeError`. -/
def objGetattr (v : Value) (name : String) : Except String Value :=
  match v with
  | Value.nsdict kvs => Except.ok ((List.lookup name kvs).getD Value.none)
  | _ => Except.error ("AttributeError: " ++ name)

/-- Iteration/unpacking (`*v`) of an embedded value: lists yield their
elements, strings their characters, mappings their keys; `None` and the
other scalars are not iterable and raise `TypeError`. -/
def iterElems : Value → Except String (List Value)
  | Value.list xs => Except.ok xs
  | Value.str s => Except.ok (s.toList.map (fun c => Value.str (String.singleton c)))
  | Value.dict kvs => Except.ok (kvs.map (fun kv => Value.str kv.1))
  | Value.nsdict kvs => Except.ok (kvs.map (fun kv => Value.str kv.1))
  | Value.none => Except.error "TypeError: NoneType is not iterable"
  | Value.int _ => Except.error "TypeError: int is not iterable"
  | Value.bool _ => Except.error "TypeError: bool is not iterable"

/-- Python `str(v)` as interpolated by the f-string building the
`instance_types` keys.  Container rendering is abbreviated (no
configuration in this development interpolates a container
`cluster_name`). -/
def pyStr : Value → String
  | Value.none => "None"
  | Value.str s => s
  | Value.int n => toString n
  | Value.bool b => if b then "True" else "False"
  | Value.list _ => "<list>"
  | Value.dict _ => "<dict>"
  | Value.nsdict _ => "<nsdict>"

/-- Dict comprehension `\x7bk: f(k) for k in keys\x7d`: later duplicate
keys overwrite in place, first occurrence fixes the position. -/
def dictComp (keys : List String) (f : String → Value) : Entries :=
  keys.foldl (fun acc k => setEntry acc k (f k)) []

/-- Apply `f` to the value of the (unique) entry with key `k`, leaving the
other entries and the order untouched. -/
def mapEntry : Entries → String → (Value → Value) → Entries
  | [], _, _ => []
  | (k', v) :: rest, k, f =>
      if k' = k then (k', f v) :: rest else (k', v) :: mapEntry rest k f

/-- Effectful map over a list in the `Except` monad, failing at the first
failing element — the order in which a Python `for`/comprehension visits a
sequence. -/
def mapMEx {α β : Type} (f : α → Except String β) : List α → Except String (List β)
  | [] => Except.ok []
  | a :: as => do
      let b ← f a
      let bs ← mapMEx f as
      Except.ok (b :: bs)

mutual

/-- `from_nested` in `NSDict.__init__` (util.py lines 174-181): any value
that is a mapping (`isinstance(value, dict)` — true for raw dicts and for
already-converted namespaces alike) is rebuilt as a fresh converted
namespace, lists are rebuilt element-wise, every other value is returned
unchanged. -/
def from_nested : Value → Value
  | Value.dict kvs => Value.nsdict (fromEntries kvs)
  | Value.nsdict kvs => Value.nsdict (fromEntries kvs)
  | Value.list xs => Value.list (fromList xs)
  | Value.none => Value.none
  | Value.str s => Value.str s
  | Value.int n => Value.int n
  | Value.bool b => Value.bool b

/-- Element-wise conversion of a Python list (`[from_nested(v) for v in value]`). -/
def fromList : List Value → List Value
  | [] => []
  | x :: xs => from_nested x :: fromList xs

/-- Value-wise conversion of the entries of a mapping
(`\x7bk: from_nested(v) for k, v in value.items()\x7d`). -/
def fromEntries : Entries → Entries
  | [] => []
  | (k, v) :: kvs => (k, from_nested v) :: fromEntries kvs

end

/-- `NSDict(m)` applied to a mapping with entries `kvs`: the
`OrderedDict` is initialised from the entries and then every value is
converted in place with `from_nested` (util.py lines 183-188). -/
def NSDict_init (kvs : Entries) : Value :=
  Value.nsdict (fromEntries kvs)

mutual

/-- No raw (unconverted) mapping occurs anywhere inside the value. -/
def noRawB : Value → Bool
  | Value.dict _ => false
  | Value.nsdict kvs => noRawEntriesB kvs
  | Value.list xs => noRawListB xs
  | Value.none => true
  | Value.str _ => true
  | Value.int _ => true
  | Value.bool _ => true

/-- No raw mapping occurs in any element of the list. -/
def noRawListB : List Value → Bool
  | [] => true
  | x :: xs => noRawB x && noRawListB xs

/-- No raw mapping occurs in any value of the entries. -/
def noRawEntriesB : Entries → Bool
  | [] => true
  | (_, v) :: kvs => noRawB v && noRawEntriesB kvs

end

mutual

/-- Forget the converted/raw distinction: render every namespace as a plain
mapping.  This is the information content of the YAML document produced by
`Dumper.represent_nsdict`, which serialises a namespace through its item
view. -/
def toRaw : Value → Value
  | Value.dict kvs => Value.dict (toRawEntries kvs)
  | Value.nsdict kvs => Value.dict (toRawEntries kvs)
  | Value.list xs => Value.list (toRawList xs)
  | Value.none => Value.none
  | Value.str s => Value.str s
  | Value.int n => Value.int n
  | Value.bool b => Value.bool b

/-- Element-wise `toRaw` on a list. -/
def toRawList : List Value → List Value
  | [] => []
  | x :: xs => toRaw x :: toRawList xs

/-- Value-wise `toRaw` on entries. -/
def toRawEntries : Entries → Entries
  | [] => []
  | (k, v) :: kvs => (k, toRaw v) :: toRawEntries kvs

end

/-- `Config.TYPES` (util.py line 194), the fixed role set; modelled as a
list since only membership matters. -/
def TYPES : List String := ["compute", "login", "controller"]

/-- `Config.SAVED_PROPS` (util.py lines 197-212), in declared order. -/
def SAVED_PROPS : List String :=
  ["project", "zone", "cluster_name", "external_compute_ips",
   "shared_vpc_host_project", "compute_node_prefix",
   "compute_node_service_account", "compute_node_scopes", "slurm_cmd_path",
   "log_dir", "google_app_cred_path", "update_node_addrs",
   "network_storage", "login_network_storage", "instance_types"]

/-- `Config.PROPERTIES` (util.py lines 213-222): `SAVED_PROPS` followed by
the transient names — note `external_compute_ips` occurs twice, exactly as
in the source tuple. -/
def PROPERTIES : List String :=
  SAVED_PROPS ++
  ["munge_key", "jwt_key", "external_compute_ips",
   "controller_secondary_disk", "suspend_time", "login_node_count",
   "cloudsql", "partitions"]

/-- The three fields popped from every `instance_types` entry by
`save_config` (util.py lines 251-253). -/
def stripFields : List String := ["max_node_count", "name", "static_node_count"]

/-- One iteration of the controller-substitution loop body (util.py lines
239-240) on a collected netstore value: a non-mapping netstore raises
`AttributeError` on `netstore.server_ip`; a mapping whose `server_ip` is
the sentinel string has it rewritten to `cluster_name + "-controller"`,
which raises `TypeError` unless `cluster_name` is a string; every other
mapping is untouched. -/
def substNet1 (cn : Value) (n : Value) : Except String Value :=
  match n with
  | Value.nsdict kvs =>
      match List.lookup "server_ip" kvs with
      | some (Value.str s) =>
          if s = "$controller" then
            match cn with
            | Value.str c =>
                Except.ok (Value.nsdict
                  (setEntry kvs "server_ip" (Value.str (c ++ "-controller"))))
            | _ => Except.error "TypeError: unsupported operand for +"
          else Except.ok (Value.nsdict kvs)
      | _ => Except.ok (Value.nsdict kvs)
  | _ => Except.error "AttributeError: server_ip"

/-- The whole substitution loop (util.py lines 237-240) over a run of
collected netstore values, visited in order. -/
def substNets (cn : Value) (vs : List Value) : Except String (List Value) :=
  mapMEx (substNet1 cn) vs

/-- In-place mutation of the elements of a Python list container: when the
container is a list its elements are replaced, any other container that
produced no (or immutable) elements is left as it was. -/
def rebuildList : Value → List Value → Value
  | Value.list _, xs => Value.list xs
  | v, _ => v

/-- Write the substituted netstore elements back into one partition: the
partition keeps its keys and order, only the value of its
`network_storage` entry (when it is a list) is replaced. -/
def substPartWrite : Value → List Value → Value
  | Value.nsdict kvs, es =>
      Value.nsdict (mapEntry kvs "network_storage" (fun v => rebuildList v es))
  | v, _ => v

/-- Write the per-partition substituted netstores back into the partitions
list. -/
def zipRebuild : List Value → List (List Value) → List Value
  | [], _ => []
  | p :: ps, [] => p :: zipRebuild ps []
  | p :: ps, es :: ess => substPartWrite p es :: zipRebuild ps ess

/-- The state of the new `Config` right after
`cls(\x7bk: properties.setdefault(k, None) for k in cls.PROPERTIES\x7d)`
(util.py line 230): the comprehension materialises every `PROPERTIES` name
(missing names default to `None`) and the constructor converts every
value. -/
def configBase (properties : Entries) : Entries :=
  fromEntries (dictComp PROPERTIES (fun k => (List.lookup k properties).getD Value.none))

/-- `Config.new_config(properties)` (util.py lines 227-241).

The comprehension materialises every `PROPERTIES` name (missing names
default to `None`); the `Config` constructor then converts all values.
When `partitions` is truthy, `instance_types` is overwritten with a fresh
`NSDict` keyed `f"\x7bcluster_name\x7d-compute-\x7bpid\x7d"`; building
that `NSDict` re-converts each partition, so the stored values are fresh
copies, not aliases of the partition entries.  Finally the three
netstore sources are collected (evaluating the starred operands first and
then unpacking them left to right, as the tuple display does) and every
entry whose `server_ip` is `"$controller"` is rewritten in place.  A
truthy non-list `partitions` value is modelled as an immediate
`TypeError`; in Python it fails during the same call, in the
netstore pass. -/
def new_config (properties : Entries) : Except String Entries :=
  Except.bind
    (if truthy (configGetattr (configBase properties) "partitions") then
      match configGetattr (configBase properties) "partitions" with
      | Value.list parts =>
          Except.ok (setEntry (configBase properties) "instance_types"
            (Value.nsdict (parts.enum.map
              (fun ip => (pyStr (configGetattr (configBase properties) "cluster_name")
                ++ "-compute-" ++ toString ip.1, from_nested ip.2)))))
      | _ => Except.error "TypeError: partitions is not a list"
    else Except.ok (configBase properties)) (fun cfg2 =>
  Except.bind (iterElems (pyOr (configGetattr cfg2 "partitions") (Value.list [])))
    (fun pl =>
  Except.bind (mapMEx (fun p => objGetattr p "network_storage") pl) (fun pAttrs =>
  Except.bind (iterElems (configGetattr cfg2 "network_storage")) (fun ns1 =>
  Except.bind (iterElems (pyOr (configGetattr cfg2 "login_network_storage")
      (Value.list []))) (fun ns2 =>
  Except.bind (mapMEx iterElems pAttrs) (fun pElemss =>
  Except.bind (substNets (configGetattr cfg2 "cluster_name") ns1) (fun ns1s =>
  Except.bind (substNets (configGetattr cfg2 "cluster_name") ns2) (fun ns2s =>
  Except.bind (mapMEx (substNets (configGetattr cfg2 "cluster_name")) pElemss)
    (fun pElemsss =>
  Except.ok (setEntry (setEntry (setEntry cfg2 "network_storage"
      (rebuildList (configGetattr cfg2 "network_storage") ns1s))
    "login_network_storage"
      (rebuildList (configGetattr cfg2 "login_network_storage") ns2s))
    "partitions"
      (rebuildList (configGetattr cfg2 "partitions") (zipRebuild pl pElemsss))))))))))))

/-- `Config.save_config(path)` (util.py lines 248-254), returning the
information content of the written YAML document as a raw value tree.

`save_dict` is built by the `Config` constructor from the `SAVED_PROPS`
entries (`self[k]` raises `KeyError` when absent); the constructor
re-converts every value.  The loop then pops the three runtime fields
from every `instance_types` entry (`.values()` on a non-mapping raises
`AttributeError`).  The YAML layer is modelled as a faithful codec for
the tree: `Dumper.represent_nsdict` renders each namespace through its
item view, i.e. the document is `toRaw` of the final `save_dict`. -/
def save_config (cfg : Entries) : Except String Entries :=
  Except.bind (mapMEx (fun k =>
      match List.lookup k cfg with
      | some v => Except.ok (k, v)
      | Option.none => Except.error ("KeyError: " ++ k)) SAVED_PROPS)
    (fun pairs =>
  match configGetattr (fromEntries pairs) "instance_types" with
  | Value.nsdict its =>
      Except.bind (mapMEx (fun kv =>
          match kv.2 with
          | Value.nsdict t => Except.ok (kv.1, Value.nsdict (popKeys t stripFields))
          | _ => Except.error "AttributeError: pop") its)
        (fun its2 =>
      Except.ok (toRawEntries
        (setEntry (fromEntries pairs) "instance_types" (Value.nsdict its2))))
  | _ => Except.error "AttributeError: values")

/-- `Config.load_config(path)` (util.py lines 243-246): `yaml.safe_load`
yields the plain mapping written by `save_config` (document order
preserved), and the `Config` constructor converts its values. -/
def load_config (doc : Entries) : Entries :=
  fromEntries doc

/-- The effect of `save_config`'s stripping loop on one `instance_types`
entry: the three `stripFields` removed from the top level of a mapping
value, any other value untouched. -/
def stripEntry (kv : String × Value) : String × Value :=
  match kv.2 with
  | Value.nsdict t => (kv.1, Value.nsdict (popKeys t stripFields))
  | _ => kv

/-- The value kept in `instance_types` after `save_config`'s stripping
loop: the three `stripFields` removed from the top level of every entry
that is a mapping. -/
def stripInstanceTypes : Value → Value
  | Value.nsdict its => Value.nsdict (its.map stripEntry)
  | v => v

/-- Python `str.split` with a one-character separator, over the character
list (the only split the module performs is `zone.split("-")`): empty
input yields one empty field, each separator starts a new field. -/
def splitOnChar (c : Char) : List Char → List (List Char)
  | [] => [[]]
  | x :: rest =>
      let r := splitOnChar c rest
      if x = c then [] :: r
      else
        match r with
        | g :: gs => (x :: g) :: gs
        | [] => [[x]]

/-- Python `s.split(sep)` for a one-character separator `sep`. -/
def pySplit (c : Char) (s : String) : List String :=
  (splitOnChar c s.data).map (fun g => String.mk g)

/-- The `region` property (util.py lines 267-269):
`self.zone and "-".join(self.zone.split("-")[:-1])`.  A falsy zone is
returned as is (in particular an absent zone yields `None`); a truthy
string zone drops its trailing dash-segment; a truthy non-string zone
would raise `AttributeError` on `.split`.  As a plain `property` (a data
descriptor) it is recomputed from `zone` on every access and never reads
a stored `region` entry. -/
def region (cfg : Entries) : Except String Value :=
  let z := configGetattr cfg "zone"
  if truthy z then
    match z with
    | Value.str s =>
        Except.ok (Value.str (String.intercalate "-" ((pySplit '-' s).dropLast)))
    | _ => Except.error "AttributeError: split"
  else Except.ok z

/-- `next(iter(set(tags) & self.TYPES), None)` (util.py line 261): the
first role tag, or `None` when no tag matches.  Python iterates the
intersection set in an unspecified order; the model determinises it to
the first matching tag in list order (the claims below depend only on
whether a match exists). -/
def firstRoleTag (tags : List String) : Value :=
  match tags.find? (fun t => TYPES.contains t) with
  | some t => Value.str t
  | Option.none => Value.none

/-- `yaml.safe_load` applied to the metadata response in the
`instance_type` factory (util.py line 259).  The YAML parse of a present
tags document is abstracted as an oracle returning the parsed tag list;
`get_metadata` returns `None` on transport failure (util.py lines 94-96),
and `yaml.safe_load(None)` raises (`None` is neither a string nor a
stream). -/
def safe_load_tags (parseOracle : String → List String) :
    Option String → Except String (List String)
  | Option.none => Except.error "AttributeError: NoneType has no attribute read"
  | some s => Except.ok (parseOracle s)

/-- The body of the `instance_type` cached property (util.py lines
256-261): parse the metadata response, intersect with the role set, take
the first match or `None`. -/
def instance_type_compute (parseOracle : String → List String)
    (resp : Option String) : Except String Value := do
  let tags ← safe_load_tags parseOracle resp
  Except.ok (firstRoleTag tags)

/-- The per-entry controller substitution, as performed on one (already
converted) netstore mapping by the loop body: rewrite `server_ip` when it
is the sentinel, leave everything else unchanged. -/
def substNetSpec (cn : String) (v : Value) : Value :=
  match v with
  | Value.nsdict kvs =>
      match List.lookup "server_ip" kvs with
      | some (Value.str s) =>
          if s = "$controller" then
            Value.nsdict (setEntry kvs "server_ip" (Value.str (cn ++ "-controller")))
          else v
      | _ => v
  | v => v

/-- The controller substitution as seen on a whole (already converted)
partition: its `network_storage` list entries are substituted element
wise, all other fields are untouched. -/
def substPartSpec (cn : String) : Value → Value
  | Value.nsdict kvs =>
      Value.nsdict (mapEntry kvs "network_storage" (fun v =>
        match v with
        | Value.list es => Value.list (es.map (substNetSpec cn))
        | v => v))
  | v => v

/-- Observable state of one `Config` instance for the caching claims: its
entries (`self.__dict__ = self`, so cached values are stored as keys) and
the number of calls made so far to the two external collaborators
(`get_metadata("tags")` and `socket.gethostname()`). -/
structure ConfigState where
  entries : Entries
  tagCalls : Nat
  hostCalls : Nat

/-- One attribute access `cfg.instance_type` through the
`cached_property` descriptor (util.py lines 154-167, 256-261).  A
non-data descriptor: a key already stored in the instance dict is
returned without running the factory.  Otherwise the factory runs — one
`get_metadata("tags")` call, counted — and its body is exactly
`instance_type_compute` on the collaborator response `resp`: when the
lookup returns a document, the result is stored via `setattr` (a dict
key, since `self.__dict__ = self`) and returned; when the lookup fails
(`resp` absent), the factory raises BEFORE the `setattr` runs, so the
error propagates to this caller and nothing is cached. -/
def getInstanceType (parse : String → List String) (resp : Option String)
    (s : ConfigState) : Except String Value × ConfigState :=
  match List.lookup "instance_type" s.entries with
  | some v => (Except.ok v, s)
  | Option.none =>
      match instance_type_compute parse resp with
      | Except.ok v =>
          (Except.ok v,
            ⟨setEntry s.entries "instance_type" v, s.tagCalls + 1, s.hostCalls⟩)
      | Except.error e =>
          (Except.error e, ⟨s.entries, s.tagCalls + 1, s.hostCalls⟩)

/-- One attribute access `cfg.hostname` through `cached_property`
(util.py lines 263-265), with the local-hostname collaborator returning
`host`. -/
def getHostname (host : String) (s : ConfigState) : Value × ConfigState :=
  match List.lookup "hostname" s.entries with
  | some v => (v, s)
  | Option.none =>
      (Value.str host, ⟨setEntry s.entries "hostname" (Value.str host),
        s.tagCalls, s.hostCalls + 1⟩)

/-- An access made on the instance: either `cfg.instance_type` or
`cfg.hostname`. -/
inductive Access where
  | instanceType : Access
  | hostname : Access

/-- Run a sequence of accesses on a `Config` instance, with the metadata
collaborator returning `resp` on every call (absent = transport failure),
the tags document parsed by `parse`, and the hostname collaborator
returning `host`.  An access whose factory raises leaves the instance
dict unwritten: the error goes to that caller and later accesses run the
factory (and hence the collaborator) again. -/
def runAccesses (parse : String → List String) (resp : Option String)
    (host : String) : List Access → ConfigState → ConfigState
  | [], s => s
  | Access.instanceType :: rest, s =>
      runAccesses parse resp host rest (getInstanceType parse resp s).2
  | Access.hostname :: rest, s =>
      runAccesses parse resp host rest (getHostname host s).2

/-- Number of `instance_type` accesses in a sequence. -/
def countIT : List Access → Nat
  | [] => 0
  | Access.instanceType :: rest => countIT rest + 1
  | Access.hostname :: rest => countIT rest

/-- Heap-aware view of the mutable mappings, for the aliasing claim about
`save_config`: every mapping object carries an identity, lists and
scalars are structural.  (Python lists are also rebuilt by the
conversion, and `save_config` never mutates a list, so lists need no
identity here.) -/
inductive IVal where
  | scalar : Value → IVal
  | arr : List IVal → IVal
  | obj : Nat → List (String × IVal) → IVal

mutual

/-- `from_nested` on the identity-carrying values, threading a fresh-id
counter: a mapping is rebuilt as a NEW object (`type(self)(...)`
allocates), lists are rebuilt element-wise, scalars pass through.
Returns the converted value and the next free id. -/
def convFresh : IVal → Nat → IVal × Nat
  | IVal.scalar v, n => (IVal.scalar v, n)
  | IVal.arr xs, n =>
      let p := convFreshList xs n
      (IVal.arr p.1, p.2)
  | IVal.obj _ kvs, n =>
      let p := convFreshEntries kvs n
      (IVal.obj p.2 p.1, p.2 + 1)

/-- Element-wise fresh conversion of a list. -/
def convFreshList : List IVal → Nat → List IVal × Nat
  | [], n => ([], n)
  | x :: xs, n =>
      let p := convFresh x n
      let q := convFreshList xs p.2
      (p.1 :: q.1, q.2)

/-- Value-wise fresh conversion of mapping entries. -/
def convFreshEntries : List (String × IVal) → Nat → List (String × IVal) × Nat
  | [], n => ([], n)
  | (k, v) :: kvs, n =>
      let p := convFresh v n
      let q := convFreshEntries kvs p.2
      ((k, p.1) :: q.1, q.2)

end

mutual

/-- All object identities occurring in the value. -/
def objIds : IVal → List Nat
  | IVal.scalar _ => []
  | IVal.arr xs => objIdsList xs
  | IVal.obj i kvs => i :: objIdsEntries kvs

/-- Object identities of a list of values. -/
def objIdsList : List IVal → List Nat
  | [] => []
  | x :: xs => objIds x ++ objIdsList xs

/-- Object identities of mapping entries. -/
def objIdsEntries : List (String × IVal) → List Nat
  | [] => []
  | (_, v) :: kvs => objIds v ++ objIdsEntries kvs

end

mutual

/-- Every object identity in the value is below `n` (the heap allocated
so far). -/
def idsBelowB : IVal → Nat → Bool
  | IVal.scalar _, _ => true
  | IVal.arr xs, n => idsBelowListB xs n
  | IVal.obj i kvs, n => decide (i < n) && idsBelowEntriesB kvs n

/-- `idsBelowB` over a list. -/
def idsBelowListB : List IVal → Nat → Bool
  | [], _ => true
  | x :: xs, n => idsBelowB x n && idsBelowListB xs n

/-- `idsBelowB` over entries. -/
def idsBelowEntriesB : List (String × IVal) → Nat → Bool
  | [], _ => true
  | (_, v) :: kvs, n => idsBelowB v n && idsBelowEntriesB kvs n

end

mutual

/-- The heap effect of `save_config`'s stripping loop, seen from an
arbitrary root: `dict.pop` removes the given keys from exactly the
mapping objects whose identity is in `targets` (the entries of the
restricted view's `instance_types`), wherever those objects are
reachable. -/
def popAt (targets : List Nat) (ks : List String) : IVal → IVal
  | IVal.scalar v => IVal.scalar v
  | IVal.arr xs => IVal.arr (popAtList targets ks xs)
  | IVal.obj i kvs =>
      let kvs' := popAtEntries targets ks kvs
      IVal.obj i (if targets.contains i then
        kvs'.filter (fun kv => ¬ ks.contains kv.1) else kvs')

/-- `popAt` over a list. -/
def popAtList (targets : List Nat) (ks : List String) : List IVal → List IVal
  | [] => []
  | x :: xs => popAt targets ks x :: popAtList targets ks xs

/-- `popAt` over entries. -/
def popAtEntries (targets : List Nat) (ks : List String) :
    List (String × IVal) → List (String × IVal)
  | [] => []
  | (k, v) :: kvs => (k, popAt targets ks v) :: popAtEntries targets ks kvs

end

/-- Key lookup inside an identity-carrying mapping object. -/
def ivalLookup (v : IVal) (k : String) : Option IVal :=
  match v with
  | IVal.obj _ kvs => List.lookup k kvs
  | _ => Option.none

/-! ### Association-list lemmas -/

theorem lookup_cons {β : Type} (k k' : String) (v : β) (l : List (String × β)) :
    List.lookup k ((k', v) :: l) = if k = k' then some v else List.lookup k l := by
  by_cases h : k = k'
  · subst h
    simp [List.lookup]
  · have hb : (k == k') = false := beq_eq_false_iff_ne.mpr h
    simp [List.lookup, hb, h]

theorem lookup_setEntry_self (l : Entries) (k : String) (v : Value) :
    List.lookup k (setEntry l k v) = some v := by
  induction l with
  | nil => simp [setEntry, lookup_cons]
  | cons kv rest ih =>
      obtain ⟨k', v'⟩ := kv
      by_cases h : k' = k
      · subst h
        simp [setEntry, lookup_cons]
      · simp [setEntry, h, lookup_cons, Ne.symm h, ih]

theorem lookup_setEntry_ne (l : Entries) (k k0 : String) (v : Value)
    (h : k ≠ k0) : List.lookup k (setEntry l k0 v) = List.lookup k l := by
  induction l with
  | nil => simp [setEntry, lookup_cons, h]
  | cons kv rest ih =>
      obtain ⟨k', v'⟩ := kv
      by_cases h' : k' = k0
      · subst h'
        simp [setEntry, lookup_cons, h]
      · by_cases h'' : k = k'
        · subst h''
          simp [setEntry, h', lookup_cons]
        · simp [setEntry, h', lookup_cons, h'', ih]

theorem lookup_foldl_setEntry (keys : List String) (f : String → Value)
    (acc : Entries) (k : String) :
    List.lookup k (keys.foldl (fun a k' => setEntry a k' (f k')) acc)
      = if k ∈ keys then some (f k) else List.lookup k acc := by
  induction keys generalizing acc with
  | nil => simp
  | cons k0 rest ih =>
      by_cases h : k ∈ rest
      · simp [List.foldl, ih, h]
      · by_cases h0 : k = k0
        · subst h0
          simp [List.foldl, ih, h, lookup_setEntry_self]
        · simp [List.foldl, ih, h, h0, lookup_setEntry_ne _ _ _ _ h0]

theorem lookup_dictComp (keys : List String) (f : String → Value) (k : String) :
    List.lookup k (dictComp keys f)
      = if k ∈ keys then some (f k) else Option.none := by
  simpa [dictComp] using lookup_foldl_setEntry keys f [] k

theorem lookup_fromEntries (l : Entries) (k : String) :
    List.lookup k (fromEntries l) = (List.lookup k l).map from_nested := by
  induction l with
  | nil => simp [fromEntries, List.lookup]
  | cons kv rest ih =>
      obtain ⟨k', v'⟩ := kv
      by_cases h : k = k'
      · subst h
        simp [fromEntries, lookup_cons]
      · simp [fromEntries, lookup_cons, h, ih]

theorem lookup_toRawEntries (l : Entries) (k : String) :
    List.lookup k (toRawEntries l) = (List.lookup k l).map toRaw := by
  induction l with
  | nil => simp [toRawEntries, List.lookup]
  | cons kv rest ih =>
      obtain ⟨k', v'⟩ := kv
      by_cases h : k = k'
      · subst h
        simp [toRawEntries, lookup_cons]
      · simp [toRawEntries, lookup_cons, h, ih]

theorem lookup_map_pair (ks : List String) (g : String → Value) (k : String) :
    List.lookup k (ks.map (fun k' => (k', g k')))
      = if k ∈ ks then some (g k) else Option.none := by
  induction ks with
  | nil => simp [List.lookup]
  | cons k0 rest ih =>
      by_cases h : k = k0
      · subst h
        simp [lookup_cons]
      · simp [lookup_cons, h, ih]

theorem setEntry_map_pair (ks : List String) (g : String → Value)
    (k0 : String) (v : Value) (hnd : ks.Nodup) (hmem : k0 ∈ ks) :
    setEntry (ks.map (fun k => (k, g k))) k0 v
      = ks.map (fun k => (k, if k = k0 then v else g k)) := by
  induction ks with
  | nil => cases hmem
  | cons k1 rest ih =>
      rcases List.mem_cons.mp hmem with h | h
      · subst h
        have hrest : ∀ k ∈ rest, ¬ k = k0 := by
          intro k hk hkk
          exact (List.nodup_cons.mp hnd).1 (hkk ▸ hk)
        simp only [List.map_cons, setEntry, if_pos rfl, if_true, eq_self_iff_true]
        congr 1
        apply List.map_congr_left
        intro k hk
        simp [hrest k hk]
      · have hne : ¬ k1 = k0 := by
          intro hkk
          exact (List.nodup_cons.mp hnd).1 (hkk ▸ h)
        simp only [List.map_cons, setEntry, if_neg hne]
        rw [ih (List.nodup_cons.mp hnd).2 h]

theorem fromEntries_keys (l : Entries) :
    (fromEntries l).map Prod.fst = l.map Prod.fst := by
  induction l with
  | nil => rfl
  | cons kv rest ih =>
      obtain ⟨k, v⟩ := kv
      simp [fromEntries, ih]

theorem toRawEntries_keys (l : Entries) :
    (toRawEntries l).map Prod.fst = l.map Prod.fst := by
  induction l with
  | nil => rfl
  | cons kv rest ih =>
      obtain ⟨k, v⟩ := kv
      simp [toRawEntries, ih]

theorem toRawEntries_eq_map (l : Entries) :
    toRawEntries l = l.map (fun kv => (kv.1, toRaw kv.2)) := by
  induction l with
  | nil => rfl
  | cons kv rest ih =>
      obtain ⟨k, v⟩ := kv
      simp [toRawEntries, ih]

theorem fromEntries_eq_map (l : Entries) :
    fromEntries l = l.map (fun kv => (kv.1, from_nested kv.2)) := by
  induction l with
  | nil => rfl
  | cons kv rest ih =>
      obtain ⟨k, v⟩ := kv
      simp [fromEntries, ih]

/-! ### Conversion lemmas -/

mutual

theorem noRaw_from_nested : ∀ v : Value, noRawB (from_nested v) = true
  | Value.dict kvs => by
      simp [from_nested, noRawB, noRaw_fromEntries kvs]
  | Value.nsdict kvs => by
      simp [from_nested, noRawB, noRaw_fromEntries kvs]
  | Value.list xs => by
      simp [from_nested, noRawB, noRaw_fromList xs]
  | Value.none => rfl
  | Value.str _ => rfl
  | Value.int _ => rfl
  | Value.bool _ => rfl

theorem noRaw_fromList : ∀ xs : List Value, noRawListB (fromList xs) = true
  | [] => rfl
  | x :: xs => by
      simp [fromList, noRawListB, noRaw_from_nested x, noRaw_fromList xs]

theorem noRaw_fromEntries : ∀ kvs : Entries, noRawEntriesB (fromEntries kvs) = true
  | [] => rfl
  | (_, v) :: kvs => by
      simp [fromEntries, noRawEntriesB, noRaw_from_nested v, noRaw_fromEntries kvs]

end

mutual

theorem toRaw_from_nested : ∀ v : Value, toRaw (from_nested v) = toRaw v
  | Value.dict kvs => by
      simp [from_nested, toRaw, toRaw_fromEntries kvs]
  | Value.nsdict kvs => by
      simp [from_nested, toRaw, toRaw_fromEntries kvs]
  | Value.list xs => by
      simp [from_nested, toRaw, toRaw_fromList xs]
  | Value.none => rfl
  | Value.str _ => rfl
  | Value.int _ => rfl
  | Value.bool _ => rfl

theorem toRaw_fromList : ∀ xs : List Value, toRawList (fromList xs) = toRawList xs
  | [] => rfl
  | x :: xs => by
      simp [fromList, toRawList, toRaw_from_nested x, toRaw_fromList xs]

theorem toRaw_fromEntries : ∀ kvs : Entries, toRawEntries (fromEntries kvs) = toRawEntries kvs
  | [] => rfl
  | (_, v) :: kvs => by
      simp [fromEntries, toRawEntries, toRaw_from_nested v, toRaw_fromEntries kvs]

end

mutual

theorem from_nested_of_noRaw : ∀ v : Value, noRawB v = true → from_nested v = v
  | Value.dict _, h => by simp [noRawB] at h
  | Value.nsdict kvs, h => by
      simp [noRawB] at h
      simp [from_nested, fromEntries_of_noRaw kvs h]
  | Value.list xs, h => by
      simp [noRawB] at h
      simp [from_nested, fromList_of_noRaw xs h]
  | Value.none, _ => rfl
  | Value.str _, _ => rfl
  | Value.int _, _ => rfl
  | Value.bool _, _ => rfl

theorem fromList_of_noRaw : ∀ xs : List Value, noRawListB xs = true → fromList xs = xs
  | [], _ => rfl
  | x :: xs, h => by
      simp [noRawListB] at h
      simp [fromList, from_nested_of_noRaw x h.1, fromList_of_noRaw xs h.2]

theorem fromEntries_of_noRaw : ∀ kvs : Entries, noRawEntriesB kvs = true → fromEntries kvs = kvs
  | [], _ => rfl
  | (_, v) :: kvs, h => by
      simp [noRawEntriesB] at h
      simp [fromEntries, from_nested_of_noRaw v h.1, fromEntries_of_noRaw kvs h.2]

end

mutual

theorem from_nested_toRaw_of_noRaw : ∀ v : Value, noRawB v = true →
    from_nested (toRaw v) = v
  | Value.dict _, h => by simp [noRawB] at h
  | Value.nsdict kvs, h => by
      simp [noRawB] at h
      simp [toRaw, from_nested, fromEntries_toRaw_of_noRaw kvs h]
  | Value.list xs, h => by
      simp [noRawB] at h
      simp [toRaw, from_nested, fromList_toRaw_of_noRaw xs h]
  | Value.none, _ => rfl
  | Value.str _, _ => rfl
  | Value.int _, _ => rfl
  | Value.bool _, _ => rfl

theorem fromList_toRaw_of_noRaw : ∀ xs : List Value, noRawListB xs = true →
    fromList (toRawList xs) = xs
  | [], _ => rfl
  | x :: xs, h => by
      simp [noRawListB] at h
      simp [toRawList, fromList, from_nested_toRaw_of_noRaw x h.1,
        fromList_toRaw_of_noRaw xs h.2]

theorem fromEntries_toRaw_of_noRaw : ∀ kvs : Entries, noRawEntriesB kvs = true →
    fromEntries (toRawEntries kvs) = kvs
  | [], _ => rfl
  | (_, v) :: kvs, h => by
      simp [noRawEntriesB] at h
      simp [toRawEntries, fromEntries, from_nested_toRaw_of_noRaw v h.1,
        fromEntries_toRaw_of_noRaw kvs h.2]

end

theorem noRawEntriesB_lookup (kvs : Entries) (k : String) (v : Value)
    (hn : noRawEntriesB kvs = true) (hl : List.lookup k kvs = some v) :
    noRawB v = true := by
  induction kvs with
  | nil => simp [List.lookup] at hl
  | cons kv rest ih =>
      obtain ⟨k', v'⟩ := kv
      simp [noRawEntriesB] at hn
      by_cases h : k = k'
      · subst h
        simp [lookup_cons] at hl
        exact hl ▸ hn.1
      · simp [lookup_cons, h] at hl
        exact ih hn.2 hl

theorem noRawEntriesB_filter (kvs : Entries) (p : String × Value → Bool)
    (hn : noRawEntriesB kvs = true) :
    noRawEntriesB (kvs.filter p) = true := by
  induction kvs with
  | nil => rfl
  | cons kv rest ih =>
      obtain ⟨k, v⟩ := kv
      simp [noRawEntriesB] at hn
      by_cases h : p (k, v)
      · simp [List.filter, h, noRawEntriesB, hn.1, ih hn.2]
      · simp [List.filter, h, ih hn.2]

/-! ### Caching lemmas -/

theorem instance_type_compute_some (parse : String → List String) (doc : String) :
    instance_type_compute parse (some doc) = Except.ok (firstRoleTag (parse doc)) := rfl

theorem instance_type_compute_fail (parse : String → List String) :
    instance_type_compute parse Option.none
      = Except.error "AttributeError: NoneType has no attribute read" := rfl

theorem runAccesses_tagCalls_le (parse : String → List String) (doc : String)
    (host : String) :
    ∀ (ops : List Access) (s : ConfigState),
      (runAccesses parse (some doc) host ops s).tagCalls
        ≤ s.tagCalls + (if (List.lookup "instance_type" s.entries).isSome then 0 else 1)
  | [], s => by
      cases h : (List.lookup "instance_type" s.entries).isSome <;>
        simp [runAccesses, h]
  | Access.instanceType :: rest, s => by
      simp only [runAccesses, getInstanceType, instance_type_compute_some]
      cases h : List.lookup "instance_type" s.entries with
      | some v =>
          simpa [h] using runAccesses_tagCalls_le parse doc host rest s
      | none =>
          have hc : (List.lookup "instance_type"
              (setEntry s.entries "instance_type" (firstRoleTag (parse doc)))).isSome := by
            simp [lookup_setEntry_self]
          have := runAccesses_tagCalls_le parse doc host rest
            ⟨setEntry s.entries "instance_type" (firstRoleTag (parse doc)),
              s.tagCalls + 1, s.hostCalls⟩
          simp only [hc, if_pos] at this
          simpa [h] using this
  | Access.hostname :: rest, s => by
      simp only [runAccesses, getHostname]
      cases h : List.lookup "hostname" s.entries with
      | some v =>
          simpa [h] using runAccesses_tagCalls_le parse doc host rest s
      | none =>
          have hk : ("instance_type" : String) ≠ "hostname" := by decide
          have hc : List.lookup "instance_type"
              (setEntry s.entries "hostname" (Value.str host))
              = List.lookup "instance_type" s.entries :=
            lookup_setEntry_ne _ _ _ _ hk
          have := runAccesses_tagCalls_le parse doc host rest
            ⟨setEntry s.entries "hostname" (Value.str host),
              s.tagCalls, s.hostCalls + 1⟩
          rw [hc] at this
          simpa [h] using this

theorem runAccesses_hostCalls_le (parse : String → List String)
    (resp : Option String) (host : String) :
    ∀ (ops : List Access) (s : ConfigState),
      (runAccesses parse resp host ops s).hostCalls
        ≤ s.hostCalls + (if (List.lookup "hostname" s.entries).isSome then 0 else 1)
  | [], s => by
      cases h : (List.lookup "hostname" s.entries).isSome <;>
        simp [runAccesses, h]
  | Access.hostname :: rest, s => by
      simp only [runAccesses, getHostname]
      cases h : List.lookup "hostname" s.entries with
      | some v =>
          simpa [h] using runAccesses_hostCalls_le parse resp host rest s
      | none =>
          have hc : (List.lookup "hostname"
              (setEntry s.entries "hostname" (Value.str host))).isSome := by
            simp [lookup_setEntry_self]
          have := runAccesses_hostCalls_le parse resp host rest
            ⟨setEntry s.entries "hostname" (Value.str host),
              s.tagCalls, s.hostCalls + 1⟩
          simp only [hc, if_pos] at this
          simpa [h] using this
  | Access.instanceType :: rest, s => by
      simp only [runAccesses, getInstanceType]
      cases h : List.lookup "instance_type" s.entries with
      | some v =>
          simpa [h] using runAccesses_hostCalls_le parse resp host rest s
      | none =>
          cases hcomp : instance_type_compute parse resp with
          | ok v =>
              have hk : ("hostname" : String) ≠ "instance_type" := by decide
              have hc : List.lookup "hostname"
                  (setEntry s.entries "instance_type" v)
                  = List.lookup "hostname" s.entries :=
                lookup_setEntry_ne _ _ _ _ hk
              have := runAccesses_hostCalls_le parse resp host rest
                ⟨setEntry s.entries "instance_type" v, s.tagCalls + 1, s.hostCalls⟩
              rw [hc] at this
              simpa [h, hcomp] using this
          | error e =>
              have := runAccesses_hostCalls_le parse resp host rest
                ⟨s.entries, s.tagCalls + 1, s.hostCalls⟩
              simpa [h, hcomp] using this

theorem runAccesses_tagCalls_failure (parse : String → List String) (host : String) :
    ∀ (ops : List Access) (s : ConfigState),
      List.lookup "instance_type" s.entries = Option.none →
      (runAccesses parse Option.none host ops s).tagCalls = s.tagCalls + countIT ops
  | [], s, _ => by
      simp [runAccesses, countIT]
  | Access.instanceType :: rest, s, hnone => by
      simp only [runAccesses, getInstanceType, hnone, instance_type_compute_fail]
      have := runAccesses_tagCalls_failure parse host rest
        ⟨s.entries, s.tagCalls + 1, s.hostCalls⟩ hnone
      rw [this]
      simp only [countIT]
      omega
  | Access.hostname :: rest, s, hnone => by
      simp only [runAccesses, getHostname]
      cases h : List.lookup "hostname" s.entries with
      | some v =>
          simpa [h, countIT] using runAccesses_tagCalls_failure parse host rest s hnone
      | none =>
          have hk : ("instance_type" : String) ≠ "hostname" := by decide
          have hc : List.lookup "instance_type"
              (setEntry s.entries "hostname" (Value.str host)) = Option.none :=
            (lookup_setEntry_ne _ _ _ _ hk).trans hnone
          have := runAccesses_tagCalls_failure parse host rest
            ⟨setEntry s.entries "hostname" (Value.str host),
              s.tagCalls, s.hostCalls + 1⟩ hc
          simpa [h, countIT] using this

/-! ### Identity-model lemmas -/

mutual

theorem convFresh_le : ∀ (v : IVal) (n : Nat), n ≤ (convFresh v n).2
  | IVal.scalar _, n => Nat.le_refl n
  | IVal.arr xs, n => by
      simpa [convFresh] using convFreshList_le xs n
  | IVal.obj _ kvs, n => by
      have := convFreshEntries_le kvs n
      simp only [convFresh]
      omega

theorem convFreshList_le : ∀ (xs : List IVal) (n : Nat), n ≤ (convFreshList xs n).2
  | [], n => Nat.le_refl n
  | x :: xs, n => by
      have h1 := convFresh_le x n
      have h2 := convFreshList_le xs (convFresh x n).2
      simp only [convFreshList]
      omega

theorem convFreshEntries_le : ∀ (kvs : List (String × IVal)) (n : Nat),
    n ≤ (convFreshEntries kvs n).2
  | [], n => Nat.le_refl n
  | (_, v) :: kvs, n => by
      have h1 := convFresh_le v n
      have h2 := convFreshEntries_le kvs (convFresh v n).2
      simp only [convFreshEntries]
      omega

end

mutual

theorem objIds_convFresh_ge : ∀ (v : IVal) (n : Nat),
    ∀ i ∈ objIds (convFresh v n).1, n ≤ i
  | IVal.scalar _, n => by
      simp [convFresh, objIds]
  | IVal.arr xs, n => by
      simpa [convFresh, objIds] using objIdsList_convFresh_ge xs n
  | IVal.obj j kvs, n => by
      intro i hi
      simp only [convFresh, objIds, List.mem_cons] at hi
      rcases hi with h | h
      · have := convFreshEntries_le kvs n
        omega
      · exact objIdsEntries_convFresh_ge kvs n i h

theorem objIdsList_convFresh_ge : ∀ (xs : List IVal) (n : Nat),
    ∀ i ∈ objIdsList (convFreshList xs n).1, n ≤ i
  | [], n => by simp [convFreshList, objIdsList]
  | x :: xs, n => by
      intro i hi
      simp only [convFreshList, objIdsList, List.mem_append] at hi
      rcases hi with h | h
      · exact objIds_convFresh_ge x n i h
      · have h2 := objIdsList_convFresh_ge xs (convFresh x n).2 i h
        have h1 := convFresh_le x n
        omega

theorem objIdsEntries_convFresh_ge : ∀ (kvs : List (String × IVal)) (n : Nat),
    ∀ i ∈ objIdsEntries (convFreshEntries kvs n).1, n ≤ i
  | [], n => by simp [convFreshEntries, objIdsEntries]
  | (_, v) :: kvs, n => by
      intro i hi
      simp only [convFreshEntries, objIdsEntries, List.mem_append] at hi
      rcases hi with h | h
      · exact objIds_convFresh_ge v n i h
      · have h2 := objIdsEntries_convFresh_ge kvs (convFresh v n).2 i h
        have h1 := convFresh_le v n
        omega

end

mutual

theorem idsBelow_mem : ∀ (v : IVal) (n : Nat), idsBelowB v n = true →
    ∀ i ∈ objIds v, i < n
  | IVal.scalar _, n, _ => by simp [objIds]
  | IVal.arr xs, n, h => by
      simp only [idsBelowB] at h
      simpa [objIds] using idsBelowList_mem xs n h
  | IVal.obj j kvs, n, h => by
      simp only [idsBelowB, Bool.and_eq_true, decide_eq_true_eq] at h
      intro i hi
      simp only [objIds, List.mem_cons] at hi
      rcases hi with rfl | hi
      · exact h.1
      · exact idsBelowEntries_mem kvs n h.2 i hi

theorem idsBelowList_mem : ∀ (xs : List IVal) (n : Nat), idsBelowListB xs n = true →
    ∀ i ∈ objIdsList xs, i < n
  | [], n, _ => by simp [objIdsList]
  | x :: xs, n, h => by
      simp only [idsBelowListB, Bool.and_eq_true] at h
      intro i hi
      simp only [objIdsList, List.mem_append] at hi
      rcases hi with hi | hi
      · exact idsBelow_mem x n h.1 i hi
      · exact idsBelowList_mem xs n h.2 i hi

theorem idsBelowEntries_mem : ∀ (kvs : List (String × IVal)) (n : Nat),
    idsBelowEntriesB kvs n = true → ∀ i ∈ objIdsEntries kvs, i < n
  | [], n, _ => by simp [objIdsEntries]
  | (_, v) :: kvs, n, h => by
      simp only [idsBelowEntriesB, Bool.and_eq_true] at h
      intro i hi
      simp only [objIdsEntries, List.mem_append] at hi
      rcases hi with hi | hi
      · exact idsBelow_mem v n h.1 i hi
      · exact idsBelowEntries_mem kvs n h.2 i hi

end

mutual

theorem popAt_eq_self : ∀ (v : IVal) (targets : List Nat) (ks : List String),
    (∀ i ∈ objIds v, ¬ i ∈ targets) → popAt targets ks v = v
  | IVal.scalar _, _, _, _ => rfl
  | IVal.arr xs, targets, ks, h => by
      simp only [objIds] at h
      simp [popAt, popAtList_eq_self xs targets ks h]
  | IVal.obj j kvs, targets, ks, h => by
      have hj : ¬ j ∈ targets := h j (by simp [objIds])
      have hkvs : ∀ i ∈ objIdsEntries kvs, ¬ i ∈ targets := by
        intro i hi
        exact h i (by simp [objIds, hi])
      have hcont : targets.contains j = false := by
        simpa using hj
      simp only [popAt, hcont]
      rw [if_neg (by simp), popAtEntries_eq_self kvs targets ks hkvs]

theorem popAtList_eq_self : ∀ (xs : List IVal) (targets : List Nat) (ks : List String),
    (∀ i ∈ objIdsList xs, ¬ i ∈ targets) → popAtList targets ks xs = xs
  | [], _, _, _ => rfl
  | x :: xs, targets, ks, h => by
      simp only [objIdsList] at h
      have hx : ∀ i ∈ objIds x, ¬ i ∈ targets := by
        intro i hi
        exact h i (List.mem_append.mpr (Or.inl hi))
      have hxs : ∀ i ∈ objIdsList xs, ¬ i ∈ targets := by
        intro i hi
        exact h i (List.mem_append.mpr (Or.inr hi))
      simp [popAtList, popAt_eq_self x targets ks hx, popAtList_eq_self xs targets ks hxs]

theorem popAtEntries_eq_self : ∀ (kvs : List (String × IVal)) (targets : List Nat)
    (ks : List String),
    (∀ i ∈ objIdsEntries kvs, ¬ i ∈ targets) → popAtEntries targets ks kvs = kvs
  | [], _, _, _ => rfl
  | (k, v) :: kvs, targets, ks, h => by
      simp only [objIdsEntries] at h
      have hv : ∀ i ∈ objIds v, ¬ i ∈ targets := by
        intro i hi
        exact h i (List.mem_append.mpr (Or.inl hi))
      have hkvs : ∀ i ∈ objIdsEntries kvs, ¬ i ∈ targets := by
        intro i hi
        exact h i (List.mem_append.mpr (Or.inr hi))
      simp [popAtEntries, popAt_eq_self v targets ks hv,
        popAtEntries_eq_self kvs targets ks hkvs]

end

/-! ### Pipeline lemmas for `new_config` -/

theorem fromList_eq_map (xs : List Value) : fromList xs = xs.map from_nested := by
  induction xs with
  | nil => rfl
  | cons x xs ih => simp [fromList, ih]

theorem from_nested_idem (v : Value) : from_nested (from_nested v) = from_nested v :=
  from_nested_of_noRaw _ (noRaw_from_nested v)

theorem except_bind_ok {α β : Type} (a : Except String α) (f : α → Except String β)
    (c : β) (h : Except.bind a f = Except.ok c) :
    ∃ b, a = Except.ok b ∧ f b = Except.ok c := by
  cases a with
  | ok b => exact ⟨b, rfl, h⟩
  | error e => simp [Except.bind] at h

theorem mapMEx_nil_ok {α β : Type} (f : α → Except String β) (bs : List β)
    (h : mapMEx f [] = Except.ok bs) : bs = [] := by
  simp [mapMEx] at h
  exact h

theorem mapMEx_cons_ok {α β : Type} (f : α → Except String β) (a : α) (as : List α)
    (bs : List β) (h : mapMEx f (a :: as) = Except.ok bs) :
    ∃ b bs', f a = Except.ok b ∧ mapMEx f as = Except.ok bs' ∧ bs = b :: bs' := by
  cases hf : f a with
  | error e => simp [mapMEx, Bind.bind, Except.bind, hf] at h
  | ok b =>
      cases hr : mapMEx f as with
      | error e => simp [mapMEx, Bind.bind, Except.bind, hf, hr] at h
      | ok bs' =>
          simp only [mapMEx, Bind.bind, Except.bind, hf, hr, Except.ok.injEq] at h
          exact ⟨b, bs', rfl, rfl, h.symm⟩

theorem mapMEx_ok_map {α β : Type} (f : α → Except String β) (g : α → β)
    (hfg : ∀ a b, f a = Except.ok b → b = g a) :
    ∀ (as : List α) (bs : List β), mapMEx f as = Except.ok bs → bs = as.map g
  | [], bs, h => by
      simpa using mapMEx_nil_ok f bs h
  | a :: as, bs, h => by
      obtain ⟨b, bs2, hb, hrest, rfl⟩ := mapMEx_cons_ok _ _ _ _ h
      simp [hfg a b hb, mapMEx_ok_map f g hfg as bs2 hrest]

theorem substNet1_ok (c : String) (v v2 : Value)
    (h : substNet1 (Value.str c) v = Except.ok v2) : v2 = substNetSpec c v := by
  cases v with
  | nsdict kvs =>
      cases hl : List.lookup "server_ip" kvs with
      | some w =>
          cases w with
          | str s =>
              by_cases hs : s = "$controller"
              · subst hs
                simp only [substNet1, hl, if_pos rfl, if_true, Except.ok.injEq] at h
                simp [substNetSpec, hl, h.symm]
              · simp only [substNet1, hl, if_neg hs, Except.ok.injEq] at h
                simp [substNetSpec, hl, hs, h.symm]
          | none =>
              simp only [substNet1, hl, Except.ok.injEq] at h
              simp [substNetSpec, hl, h.symm]
          | int n =>
              simp only [substNet1, hl, Except.ok.injEq] at h
              simp [substNetSpec, hl, h.symm]
          | bool b =>
              simp only [substNet1, hl, Except.ok.injEq] at h
              simp [substNetSpec, hl, h.symm]
          | list xs =>
              simp only [substNet1, hl, Except.ok.injEq] at h
              simp [substNetSpec, hl, h.symm]
          | dict kvs2 =>
              simp only [substNet1, hl, Except.ok.injEq] at h
              simp [substNetSpec, hl, h.symm]
          | nsdict kvs2 =>
              simp only [substNet1, hl, Except.ok.injEq] at h
              simp [substNetSpec, hl, h.symm]
      | none =>
          simp only [substNet1, hl, Except.ok.injEq] at h
          simp [substNetSpec, hl, h.symm]
  | none => simp [substNet1] at h
  | str s => simp [substNet1] at h
  | int n => simp [substNet1] at h
  | bool b => simp [substNet1] at h
  | list xs => simp [substNet1] at h
  | dict kvs => simp [substNet1] at h

theorem substNets_ok_map (c : String) (vs vs2 : List Value)
    (h : substNets (Value.str c) vs = Except.ok vs2) :
    vs2 = vs.map (substNetSpec c) :=
  mapMEx_ok_map (substNet1 (Value.str c)) (substNetSpec c)
    (fun a b hb => substNet1_ok c a b hb) vs vs2 h

theorem mapEntry_congr_lookup (kvs : Entries) (k : String) (v : Value)
    (f g : Value → Value) (hl : List.lookup k kvs = some v) (hfg : f v = g v) :
    mapEntry kvs k f = mapEntry kvs k g := by
  induction kvs with
  | nil => simp [List.lookup] at hl
  | cons kv rest ih =>
      obtain ⟨k', v'⟩ := kv
      by_cases h : k' = k
      · subst h
        rw [lookup_cons] at hl
        simp only [if_pos rfl] at hl
        cases hl
        simp [mapEntry, hfg]
      · rw [lookup_cons, if_neg (fun hk => h hk.symm)] at hl
        simp [mapEntry, h, ih hl]

theorem substPartWrite_spec (c : String) (p a : Value) (e e2 : List Value)
    (ha : objGetattr p "network_storage" = Except.ok a)
    (he : iterElems a = Except.ok e)
    (hs : substNets (Value.str c) e = Except.ok e2) :
    substPartWrite p e2 = substPartSpec c p := by
  cases p with
  | nsdict kvs =>
      simp only [objGetattr, Except.ok.injEq] at ha
      cases hl : List.lookup "network_storage" kvs with
      | none =>
          rw [hl] at ha
          simp only [Option.getD_none] at ha
          rw [← ha] at he
          simp [iterElems] at he
      | some w =>
          rw [hl] at ha
          simp only [Option.getD_some] at ha
          have hw : List.lookup "network_storage" kvs = some a := by rw [hl, ha]
          simp only [substPartWrite, substPartSpec]
          congr 1
          apply mapEntry_congr_lookup kvs "network_storage" a _ _ hw
          cases a with
          | list es =>
              simp only [iterElems, Except.ok.injEq] at he
              subst he
              rw [substNets_ok_map c es e2 hs]
              simp [rebuildList]
          | none => simp [iterElems] at he
          | str s => simp [rebuildList]
          | int n => simp [rebuildList]
          | bool b => simp [rebuildList]
          | dict kvs2 => simp [rebuildList]
          | nsdict kvs2 => simp [rebuildList]
  | none => simp [objGetattr] at ha
  | str s => simp [objGetattr] at ha
  | int n => simp [objGetattr] at ha
  | bool b => simp [objGetattr] at ha
  | list xs => simp [objGetattr] at ha
  | dict kvs => simp [objGetattr] at ha

theorem zipRebuild_spec (c : String) : ∀ (pl pAttrs : List Value)
    (pElemss pElemss' : List (List Value)),
    mapMEx (fun p => objGetattr p "network_storage") pl = Except.ok pAttrs →
    mapMEx iterElems pAttrs = Except.ok pElemss →
    mapMEx (substNets (Value.str c)) pElemss = Except.ok pElemss' →
    zipRebuild pl pElemss' = pl.map (substPartSpec c)
  | [], pAttrs, pElemss, pElemss', h1, h2, h3 => by
      have e1 := mapMEx_nil_ok _ _ h1
      subst e1
      have e2 := mapMEx_nil_ok _ _ h2
      subst e2
      have e3 := mapMEx_nil_ok _ _ h3
      subst e3
      rfl
  | p :: pl, pAttrs, pElemss, pElemss', h1, h2, h3 => by
      obtain ⟨a, pAttrs', ha, h1', rfl⟩ := mapMEx_cons_ok _ _ _ _ h1
      obtain ⟨e, pElemss0, he, h2', rfl⟩ := mapMEx_cons_ok _ _ _ _ h2
      obtain ⟨e', pElemss0', hs, h3', rfl⟩ := mapMEx_cons_ok _ _ _ _ h3
      simp only [zipRebuild, List.map_cons]
      rw [substPartWrite_spec c p a e e' ha he hs,
        zipRebuild_spec c pl pAttrs' pElemss0 pElemss0' h1' h2' h3']


theorem lookup_base (props : Entries) (k : String) (hk : k ∈ PROPERTIES) :
    List.lookup k (configBase props)
      = some (from_nested ((List.lookup k props).getD Value.none)) := by
  rw [configBase, lookup_fromEntries, lookup_dictComp]
  simp [hk]

theorem pyOr_list (xs : List Value) :
    pyOr (Value.list xs) (Value.list []) = Value.list xs := by
  cases xs <;> simp [pyOr, truthy]

theorem new_config_master (props cfg : Entries) (cn : String)
    (hcn : List.lookup "cluster_name" props = some (Value.str cn))
    (hok : new_config props = Except.ok cfg) :
    (∀ ns : List Value,
        List.lookup "network_storage" props = some (Value.list ns) →
        List.lookup "network_storage" cfg
          = some (Value.list (ns.map (fun e => substNetSpec cn (from_nested e)))))
    ∧ (∀ lns : List Value,
        List.lookup "login_network_storage" props = some (Value.list lns) →
        List.lookup "login_network_storage" cfg
          = some (Value.list (lns.map (fun e => substNetSpec cn (from_nested e)))))
    ∧ (List.lookup "login_network_storage" props = Option.none →
        List.lookup "login_network_storage" cfg = some Value.none)
    ∧ (∀ parts : List Value,
        List.lookup "partitions" props = some (Value.list parts) →
        List.lookup "partitions" cfg
          = some (Value.list (parts.map (fun p => substPartSpec cn (from_nested p))))
        ∧ (parts ≠ [] →
            List.lookup "instance_types" cfg
              = some (Value.nsdict (parts.enum.map (fun ip =>
                  (cn ++ "-compute-" ++ toString ip.1, from_nested ip.2)))))) := by
  unfold new_config at hok
  obtain ⟨cfg2, hcfg2, hok1⟩ := except_bind_ok _ _ _ hok
  obtain ⟨pl, hpl, hok2⟩ := except_bind_ok _ _ _ hok1
  obtain ⟨pAttrs, hpA, hok3⟩ := except_bind_ok _ _ _ hok2
  obtain ⟨ns1, hns1, hok4⟩ := except_bind_ok _ _ _ hok3
  obtain ⟨ns2, hns2, hok5⟩ := except_bind_ok _ _ _ hok4
  obtain ⟨pElemss, hpE, hok6⟩ := except_bind_ok _ _ _ hok5
  obtain ⟨ns1s, hns1s, hok7⟩ := except_bind_ok _ _ _ hok6
  obtain ⟨ns2s, hns2s, hok8⟩ := except_bind_ok _ _ _ hok7
  obtain ⟨pElemsss, hpEs, hok9⟩ := except_bind_ok _ _ _ hok8
  injection hok9 with hfin
  have hpres : ∀ k, k ≠ "instance_types" →
      List.lookup k cfg2 = List.lookup k (configBase props) := by
    intro k hk
    split at hcfg2
    · split at hcfg2
      · simp only [Except.ok.injEq] at hcfg2
        rw [← hcfg2, lookup_setEntry_ne _ _ _ _ hk]
      · exact absurd hcfg2 (by simp)
    · simp only [Except.ok.injEq] at hcfg2
      rw [← hcfg2]
  have hmem1 : ("network_storage" : String) ∈ PROPERTIES := by decide
  have hmem2 : ("cluster_name" : String) ∈ PROPERTIES := by decide
  have hmem3 : ("login_network_storage" : String) ∈ PROPERTIES := by decide
  have hmem4 : ("partitions" : String) ∈ PROPERTIES := by decide
  have hbase_cn : List.lookup "cluster_name" (configBase props)
      = some (Value.str cn) := by
    rw [lookup_base props _ hmem2, hcn]
    simp [from_nested]
  have hcfg2_cn : List.lookup "cluster_name" cfg2 = some (Value.str cn) :=
    (hpres _ (by decide)).trans hbase_cn
  have hga_cn : configGetattr cfg2 "cluster_name" = Value.str cn := by
    simp [configGetattr, hcfg2_cn]
  refine ⟨?_, ?_, ?_, ?_⟩
  · intro ns hns
    have hbase_ns : List.lookup "network_storage" (configBase props)
        = some (Value.list (fromList ns)) := by
      rw [lookup_base props _ hmem1, hns]
      simp [from_nested]
    have hga_ns : configGetattr cfg2 "network_storage" = Value.list (fromList ns) := by
      simp [configGetattr, (hpres _ (by decide)).trans hbase_ns]
    rw [hga_ns] at hns1
    simp only [iterElems, Except.ok.injEq] at hns1
    subst hns1
    rw [hga_cn] at hns1s
    have hns1map := substNets_ok_map cn _ _ hns1s
    rw [← hfin,
      lookup_setEntry_ne _ _ _ _ (by decide : ("network_storage" : String) ≠ "partitions"),
      lookup_setEntry_ne _ _ _ _
        (by decide : ("network_storage" : String) ≠ "login_network_storage"),
      lookup_setEntry_self, hga_ns]
    simp [rebuildList, hns1map, fromList_eq_map, List.map_map, Function.comp]
  · intro lns hlog
    have hbase_log : List.lookup "login_network_storage" (configBase props)
        = some (Value.list (fromList lns)) := by
      rw [lookup_base props _ hmem3, hlog]
      simp [from_nested]
    have hga_log : configGetattr cfg2 "login_network_storage"
        = Value.list (fromList lns) := by
      simp [configGetattr, (hpres _ (by decide)).trans hbase_log]
    rw [hga_log, pyOr_list] at hns2
    simp only [iterElems, Except.ok.injEq] at hns2
    subst hns2
    rw [hga_cn] at hns2s
    have hns2map := substNets_ok_map cn _ _ hns2s
    rw [← hfin,
      lookup_setEntry_ne _ _ _ _
        (by decide : ("login_network_storage" : String) ≠ "partitions"),
      lookup_setEntry_self, hga_log]
    simp [rebuildList, hns2map, fromList_eq_map, List.map_map, Function.comp]
  · intro habs
    have hbase_log : List.lookup "login_network_storage" (configBase props)
        = some Value.none := by
      rw [lookup_base props _ hmem3, habs]
      simp [from_nested]
    have hga_log : configGetattr cfg2 "login_network_storage" = Value.none := by
      simp [configGetattr, (hpres _ (by decide)).trans hbase_log]
    rw [← hfin,
      lookup_setEntry_ne _ _ _ _
        (by decide : ("login_network_storage" : String) ≠ "partitions"),
      lookup_setEntry_self, hga_log]
    simp [rebuildList]
  · intro parts hparts
    have hbase_p : List.lookup "partitions" (configBase props)
        = some (Value.list (fromList parts)) := by
      rw [lookup_base props _ hmem4, hparts]
      simp [from_nested]
    have hcfg2_p : List.lookup "partitions" cfg2 = some (Value.list (fromList parts)) :=
      (hpres _ (by decide)).trans hbase_p
    have hga_p : configGetattr cfg2 "partitions" = Value.list (fromList parts) := by
      simp [configGetattr, hcfg2_p]
    rw [hga_p, pyOr_list] at hpl
    simp only [iterElems, Except.ok.injEq] at hpl
    subst hpl
    rw [hga_cn] at hpEs
    constructor
    · have hz := zipRebuild_spec cn _ _ _ _ hpA hpE hpEs
      rw [← hfin, lookup_setEntry_self, hga_p]
      simp only [rebuildList]
      rw [hz, fromList_eq_map, List.map_map]
      simp [Function.comp]
    · intro hne
      have hgab : configGetattr (configBase props) "partitions"
          = Value.list (fromList parts) := by
        simp [configGetattr, hbase_p]
      have hgacb : configGetattr (configBase props) "cluster_name" = Value.str cn := by
        simp [configGetattr, hbase_cn]
      have hnef : ¬ fromList parts = [] := by
        rw [fromList_eq_map]
        simpa using hne
      have htr : truthy (Value.list (fromList parts)) = true := by
        simp [truthy, List.isEmpty_iff, hnef]
      rw [hgab, hgacb, if_pos htr] at hcfg2
      simp only [Except.ok.injEq] at hcfg2
      rw [← hfin,
        lookup_setEntry_ne _ _ _ _ (by decide : ("instance_types" : String) ≠ "partitions"),
        lookup_setEntry_ne _ _ _ _
          (by decide : ("instance_types" : String) ≠ "login_network_storage"),
        lookup_setEntry_ne _ _ _ _
          (by decide : ("instance_types" : String) ≠ "network_storage"),
        ← hcfg2, lookup_setEntry_self]
      refine congrArg some (congrArg Value.nsdict ?_)
      rw [fromList_eq_map, List.enum_map, List.map_map]
      apply List.map_congr_left
      intro ip _
      obtain ⟨i, p⟩ := ip
      simp [Function.comp, Prod.map, pyStr, from_nested_idem]


theorem noRaw_getD (cfg : Entries) (k : String) (h : noRawEntriesB cfg = true) :
    noRawB ((List.lookup k cfg).getD Value.none) = true := by
  cases hl : List.lookup k cfg with
  | some v => simpa using noRawEntriesB_lookup cfg k v h hl
  | none => simp [noRawB]

theorem noRawEntriesB_map_keys (ks : List String) (g : String → Value)
    (hg : ∀ k ∈ ks, noRawB (g k) = true) :
    noRawEntriesB (ks.map (fun k => (k, g k))) = true := by
  induction ks with
  | nil => rfl
  | cons k rest ih =>
      simp [noRawEntriesB, hg k (by simp), ih (fun k2 hk2 => hg k2 (by simp [hk2]))]

theorem fromEntries_map_keys_of_noRaw (ks : List String) (g : String → Value)
    (hg : ∀ k ∈ ks, noRawB (g k) = true) :
    fromEntries (ks.map (fun k => (k, g k))) = ks.map (fun k => (k, g k)) := by
  induction ks with
  | nil => rfl
  | cons k rest ih =>
      simp [fromEntries, from_nested_of_noRaw _ (hg k (by simp)),
        ih (fun k2 hk2 => hg k2 (by simp [hk2]))]

theorem noRawEntriesB_stripMap (its : Entries) (h : noRawEntriesB its = true) :
    noRawEntriesB (its.map stripEntry) = true := by
  induction its with
  | nil => rfl
  | cons kv rest ih =>
      obtain ⟨k, v⟩ := kv
      simp only [noRawEntriesB, Bool.and_eq_true] at h
      cases v with
      | nsdict t =>
          have ht : noRawEntriesB t = true := by simpa [noRawB] using h.1
          simp [stripEntry, noRawEntriesB, noRawB, popKeys,
            noRawEntriesB_filter t _ ht, ih h.2]
      | none => simp [stripEntry, noRawEntriesB, noRawB, ih h.2]
      | str s => simp [stripEntry, noRawEntriesB, noRawB, ih h.2]
      | int n => simp [stripEntry, noRawEntriesB, noRawB, ih h.2]
      | bool b => simp [stripEntry, noRawEntriesB, noRawB, ih h.2]
      | list xs =>
          have hxs : noRawListB xs = true := by simpa [noRawB] using h.1
          simp [stripEntry, noRawEntriesB, noRawB, hxs, ih h.2]
      | dict kvs2 => simp [noRawB] at h

theorem save_load_roundtrip (cfg doc : Entries)
    (hconv : noRawEntriesB cfg = true)
    (hsave : save_config cfg = Except.ok doc) :
    doc.map Prod.fst = SAVED_PROPS
    ∧ load_config doc = SAVED_PROPS.map (fun k =>
        (k, if k = "instance_types"
            then stripInstanceTypes ((List.lookup k cfg).getD Value.none)
            else (List.lookup k cfg).getD Value.none)) := by
  unfold save_config at hsave
  obtain ⟨pairs, hpairs, hsave⟩ := except_bind_ok _ _ _ hsave
  have hps : pairs = SAVED_PROPS.map (fun k => (k, (List.lookup k cfg).getD Value.none)) := by
    apply mapMEx_ok_map _ _ _ SAVED_PROPS pairs hpairs
    intro a b hb
    cases hl : List.lookup a cfg with
    | some v =>
        rw [hl] at hb
        simp only [Except.ok.injEq] at hb
        simp [hb.symm, hl]
    | none =>
        rw [hl] at hb
        simp at hb
  subst hps
  have hgnr : ∀ k ∈ SAVED_PROPS, noRawB ((List.lookup k cfg).getD Value.none) = true :=
    fun k _ => noRaw_getD cfg k hconv
  rw [fromEntries_map_keys_of_noRaw SAVED_PROPS _ hgnr] at hsave
  have hga : configGetattr
      (SAVED_PROPS.map (fun k => (k, (List.lookup k cfg).getD Value.none)))
      "instance_types" = (List.lookup "instance_types" cfg).getD Value.none := by
    rw [configGetattr, lookup_map_pair,
      if_pos (show ("instance_types" : String) ∈ SAVED_PROPS by decide)]
    rfl
  rw [hga] at hsave
  cases hit : (List.lookup "instance_types" cfg).getD Value.none with
  | nsdict its =>
      rw [hit] at hsave
      obtain ⟨its2, hits2, hsave⟩ := except_bind_ok _ _ _ hsave
      injection hsave with hdoc
      have hstrip : its2 = its.map stripEntry := by
        apply mapMEx_ok_map _ _ _ its its2 hits2
        intro a b hb
        cases ha : a.2 with
        | nsdict t =>
            rw [ha] at hb
            simp only [Except.ok.injEq] at hb
            simp [hb.symm, stripEntry, ha]
        | none => rw [ha] at hb; simp at hb
        | str s => rw [ha] at hb; simp at hb
        | int n => rw [ha] at hb; simp at hb
        | bool b2 => rw [ha] at hb; simp at hb
        | list xs => rw [ha] at hb; simp at hb
        | dict kvs2 => rw [ha] at hb; simp at hb
      subst hstrip
      have hset : setEntry
          (SAVED_PROPS.map (fun k => (k, (List.lookup k cfg).getD Value.none)))
          "instance_types" (Value.nsdict (its.map stripEntry))
          = SAVED_PROPS.map (fun k =>
              (k, if k = "instance_types" then Value.nsdict (its.map stripEntry)
                  else (List.lookup k cfg).getD Value.none)) :=
        setEntry_map_pair SAVED_PROPS _ "instance_types" _ (by decide) (by decide)
      rw [hset] at hdoc
      have hnr_its : noRawEntriesB its = true := by
        have := noRaw_getD cfg "instance_types" hconv
        rw [hit] at this
        simpa [noRawB] using this
      have hfinal_nr : noRawEntriesB (SAVED_PROPS.map (fun k =>
          (k, if k = "instance_types" then Value.nsdict (its.map stripEntry)
              else (List.lookup k cfg).getD Value.none))) = true := by
        apply noRawEntriesB_map_keys
        intro k hk
        by_cases hkk : k = "instance_types"
        · simp only [hkk, if_pos rfl]
          simp [noRawB, noRawEntriesB_stripMap its hnr_its]
        · simp only [if_neg hkk]
          exact noRaw_getD cfg k hconv
      constructor
      · rw [← hdoc, toRawEntries_keys]
        simp [List.map_map, Function.comp_def]
      · rw [load_config, ← hdoc, fromEntries_toRaw_of_noRaw _ hfinal_nr]
        apply List.map_congr_left
        intro k _
        by_cases hkk : k = "instance_types"
        · subst hkk
          simp [hit, stripInstanceTypes]
        · simp [hkk]
  | none => rw [hit] at hsave; simp at hsave
  | str s => rw [hit] at hsave; simp at hsave
  | int n => rw [hit] at hsave; simp at hsave
  | bool b => rw [hit] at hsave; simp at hsave
  | list xs => rw [hit] at hsave; simp at hsave
  | dict kvs2 => rw [hit] at hsave; simp at hsave


/-! ### Concrete configurations used by the witnesses -/

/-- Properties mapping for the amended C1 scenario: only `network_storage`
supplied (as an empty list). -/
def c1props : Entries := [("network_storage", Value.list [])]

/-- The `Config` produced by `new_config` on `c1props`. -/
def c1cfg : Entries := (new_config c1props).toOption.getD []

/-- Checks that an optional looked-up value is a present key holding
Python `None`. -/
def isAbsent : Option Value → Bool
  | some Value.none => true
  | _ => false

/-- A fully-populated `Config` with a strippable `instance_types` entry,
used to witness the save/load round trip. -/
def c4cfg : Entries :=
  [("project", Value.str "p"), ("zone", Value.str "us-central1-a"),
   ("cluster_name", Value.str "foo"), ("external_compute_ips", Value.none),
   ("shared_vpc_host_project", Value.none), ("compute_node_prefix", Value.none),
   ("compute_node_service_account", Value.none),
   ("compute_node_scopes", Value.list [Value.str "scope0"]),
   ("slurm_cmd_path", Value.none), ("log_dir", Value.none),
   ("google_app_cred_path", Value.none), ("update_node_addrs", Value.bool false),
   ("network_storage", Value.list []), ("login_network_storage", Value.none),
   ("instance_types", Value.nsdict [("foo-compute-0", Value.nsdict
      [("machine_type", Value.str "n1"), ("max_node_count", Value.int 10),
       ("name", Value.str "part0"), ("static_node_count", Value.int 2)])])]

/-- The document written by `save_config` on `c4cfg`. -/
def c4doc : Entries := (save_config c4cfg).toOption.getD []

/-- Properties for the C5 witness: a `$controller` entry in each of the
three netstore sources. -/
def c5props : Entries :=
  [("cluster_name", Value.str "foo"),
   ("network_storage", Value.list [Value.dict [("server_ip", Value.str "$controller")]]),
   ("login_network_storage", Value.list [Value.dict [("server_ip", Value.str "8.8.8.8")]]),
   ("partitions", Value.list [Value.dict [("network_storage",
      Value.list [Value.dict [("server_ip", Value.str "$controller")]])]])]

/-- The `Config` produced by `new_config` on `c5props`. -/
def c5cfg : Entries := (new_config c5props).toOption.getD []

/-- Properties for the C6 witness: two partitions and a pre-supplied
`instance_types` value that must be overwritten. -/
def c6props : Entries :=
  [("cluster_name", Value.str "foo"),
   ("network_storage", Value.list []),
   ("instance_types", Value.str "preexisting"),
   ("partitions", Value.list
      [Value.dict [("name", Value.str "p0"), ("network_storage", Value.list [])],
       Value.dict [("name", Value.str "p1"), ("network_storage", Value.list [])]])]

/-- The `Config` produced by `new_config` on `c6props`. -/
def c6cfg : Entries := (new_config c6props).toOption.getD []

/-- A live `Config` in the identity-carrying model: the config object (id
0) holds `instance_types` (id 1) holding one entry (id 2) that carries
`max_node_count`. -/
def c10orig : IVal :=
  IVal.obj 0 [("instance_types",
    IVal.obj 1 [("foo-compute-0",
      IVal.obj 2 [("max_node_count", IVal.scalar (Value.int 5)),
                  ("machine_type", IVal.scalar (Value.str "n1"))])])]

/-! ### Claim theorems -/

/-- Claim C1 (counterexample): `new_config` applied to the empty mapping
does not succeed — `network_storage` defaults to `None` and the netstore
collection pass unpacks it (`*cfg.network_storage`, util.py line 237)
without an absent-to-empty fallback, raising `TypeError`. -/
theorem C1_counterexample :
    new_config [] = Except.error "TypeError: NoneType is not iterable" := rfl

/-- Claim C1 (amended): `new_config` on a mapping that supplies
`network_storage` (here as an empty list) and omits every other property
succeeds, and produces a `Config` in which every name in `PROPERTIES` is a
present key whose value is absent — except `network_storage` itself, which
holds the supplied empty list. -/
theorem C1_amended :
    new_config c1props = Except.ok c1cfg
    ∧ PROPERTIES.all (fun k =>
        if k = "network_storage" then
          match List.lookup k c1cfg with
          | some (Value.list xs) => xs.isEmpty
          | _ => false
        else isAbsent (List.lookup k c1cfg)) = true :=
  ⟨rfl, rfl⟩

/-- Claim C2 (counterexample): when the metadata lookup fails
(`get_metadata` returns absent), the `instance_type` factory body does
not resolve to absent — `yaml.safe_load(None)` raises, and the error
propagates to the caller. -/
theorem C2_counterexample :
    instance_type_compute (fun _ => []) Option.none
      = Except.error "AttributeError: NoneType has no attribute read"
    ∧ instance_type_compute (fun _ => []) Option.none ≠ Except.ok Value.none :=
  ⟨rfl, fun h => Except.noConfusion h⟩

/-- Claim C2 (amended): a failed metadata/tag lookup makes
`instance_type` raise an error to its caller; the absent result arises
only from a successful lookup whose tags contain no role tag. -/
theorem C2_amended (parse : String → List String) (s : String)
    (hno : (parse s).all (fun t => !(TYPES.contains t)) = true) :
    instance_type_compute parse Option.none
      = Except.error "AttributeError: NoneType has no attribute read"
    ∧ instance_type_compute parse (some s) = Except.ok Value.none := by
  constructor
  · rfl
  · have hfind : (parse s).find? (fun t => TYPES.contains t) = Option.none := by
      rw [List.find?_eq_none]
      intro x hx
      simpa using List.all_eq_true.mp hno x hx
    have hfrt : firstRoleTag (parse s) = Value.none := by
      unfold firstRoleTag
      rw [hfind]
    simp [instance_type_compute, safe_load_tags, Bind.bind, Except.bind, hfrt]

/-- Witness for C2 (amended) at a concrete parse oracle and document. -/
theorem C2_amended_witness :
    instance_type_compute (fun _ => ["hello"]) Option.none
      = Except.error "AttributeError: NoneType has no attribute read"
    ∧ instance_type_compute (fun _ => ["hello"]) (some "x") = Except.ok Value.none :=
  C2_amended (fun _ => ["hello"]) "x" (by decide)

/-- Claim C3 (counterexample): attribute-style and key-style access are
not equivalent on a missing name — the attribute read returns absent, but
the key read raises `KeyError`. -/
theorem C3_counterexample :
    configGetitem [] "totallyUnknownField" = Except.error "KeyError"
    ∧ configGetattr [] "totallyUnknownField" = Value.none :=
  ⟨rfl, rfl⟩

/-- Claim C3 (amended): on every `Config`, attribute-style access never
raises — a missing name (declared or undeclared) reads as absent and a
present key reads as its stored value; key-style access agrees with
attribute-style access on present keys but raises `KeyError` on missing
ones. -/
theorem C3_amended (cfg : Entries) (n : String) :
    (List.lookup n cfg = Option.none →
      configGetattr cfg n = Value.none
      ∧ configGetitem cfg n = Except.error "KeyError")
    ∧ (∀ v, List.lookup n cfg = some v →
      configGetattr cfg n = v ∧ configGetitem cfg n = Except.ok v) := by
  constructor
  · intro h
    exact ⟨by simp [configGetattr, h], by simp [configGetitem, h]⟩
  · intro v h
    exact ⟨by simp [configGetattr, h], by simp [configGetitem, h]⟩

/-- Witness for C3 (amended): a missing undeclared name on a concrete
`Config`. -/
theorem C3_amended_witness :
    configGetattr [("zone", Value.str "z")] "totallyUnknownField" = Value.none
    ∧ configGetitem [("zone", Value.str "z")] "totallyUnknownField"
        = Except.error "KeyError" :=
  (C3_amended [("zone", Value.str "z")] "totallyUnknownField").1 rfl

/-- Claim C4: for every conversion-normalised `Config` on which
`save_config` succeeds, the saved document's top-level keys are exactly
`SAVED_PROPS` in declared order (in particular a subset of them), and
loading the document reproduces every `SAVED_PROPS` value of the
original, except that the three `stripFields` are removed from the top
level of every `instance_types` entry. -/
theorem C4_save_load_roundtrip (cfg doc : Entries)
    (hconv : noRawEntriesB cfg = true)
    (hsave : save_config cfg = Except.ok doc) :
    doc.map Prod.fst = SAVED_PROPS
    ∧ load_config doc = SAVED_PROPS.map (fun k =>
        (k, if k = "instance_types"
            then stripInstanceTypes ((List.lookup k cfg).getD Value.none)
            else (List.lookup k cfg).getD Value.none)) :=
  save_load_roundtrip cfg doc hconv hsave

/-- Witness for C4 at a concrete `Config` whose `instance_types` entry
carries all three strippable fields. -/
theorem C4_witness :
    c4doc.map Prod.fst = SAVED_PROPS
    ∧ load_config c4doc = SAVED_PROPS.map (fun k =>
        (k, if k = "instance_types"
            then stripInstanceTypes ((List.lookup k c4cfg).getD Value.none)
            else (List.lookup k c4cfg).getD Value.none)) :=
  C4_save_load_roundtrip c4cfg c4doc rfl rfl

/-- Claim C5: after a successful `new_config`, every netstore entry in
the three sources — `network_storage`, `login_network_storage` (absent
treated as empty), and the `network_storage` list inside each partition —
whose `server_ip` is the sentinel `"$controller"` has it rewritten to
`cluster_name ++ "-controller"`, and every other entry is unchanged:
`substNetSpec` rewrites exactly the sentinel-carrying mappings and is the
identity on all others. -/
theorem C5_controller_substitution (props cfg : Entries)
    (ns lns parts : List Value) (cn : String)
    (hns : List.lookup "network_storage" props = some (Value.list ns))
    (hcn : List.lookup "cluster_name" props = some (Value.str cn))
    (hok : new_config props = Except.ok cfg) :
    List.lookup "network_storage" cfg
        = some (Value.list (ns.map (fun e => substNetSpec cn (from_nested e))))
    ∧ (List.lookup "login_network_storage" props = some (Value.list lns) →
        List.lookup "login_network_storage" cfg
          = some (Value.list (lns.map (fun e => substNetSpec cn (from_nested e)))))
    ∧ (List.lookup "login_network_storage" props = Option.none →
        List.lookup "login_network_storage" cfg = some Value.none)
    ∧ (List.lookup "partitions" props = some (Value.list parts) →
        List.lookup "partitions" cfg
          = some (Value.list (parts.map (fun p => substPartSpec cn (from_nested p))))) := by
  obtain ⟨h1, h2, h3, h4⟩ := new_config_master props cfg cn hcn hok
  exact ⟨h1 ns hns, h2 lns, h3, fun hp => (h4 parts hp).1⟩

/-- Witness for C5 on `c5props`: the sentinel is rewritten in all three
sources and the non-sentinel login entry is untouched. -/
theorem C5_witness :
    List.lookup "network_storage" c5cfg
        = some (Value.list
            ([Value.dict [("server_ip", Value.str "$controller")]].map
              (fun e => substNetSpec "foo" (from_nested e))))
    ∧ (List.lookup "login_network_storage" c5props
          = some (Value.list [Value.dict [("server_ip", Value.str "8.8.8.8")]]) →
        List.lookup "login_network_storage" c5cfg
          = some (Value.list
              ([Value.dict [("server_ip", Value.str "8.8.8.8")]].map
                (fun e => substNetSpec "foo" (from_nested e)))))
    ∧ (List.lookup "login_network_storage" c5props = Option.none →
        List.lookup "login_network_storage" c5cfg = some Value.none)
    ∧ (List.lookup "partitions" c5props
          = some (Value.list [Value.dict [("network_storage",
              Value.list [Value.dict [("server_ip", Value.str "$controller")]])]]) →
        List.lookup "partitions" c5cfg
          = some (Value.list
              ([Value.dict [("network_storage",
                  Value.list [Value.dict [("server_ip", Value.str "$controller")]])]].map
                (fun p => substPartSpec "foo" (from_nested p))))) :=
  C5_controller_substitution c5props c5cfg _ _ _ "foo" rfl rfl rfl

/-- Claim C6: when the supplied `partitions` is a non-empty list, the
resulting `instance_types` is exactly the mapping from
`cluster_name ++ "-compute-" ++ i` (zero-based index) to the conversion
of the corresponding supplied partition entry, regardless of any
pre-supplied `instance_types` value (the synthesised mapping overwrites
it).  Per the code, the stored values are fresh conversions of the
partition entries, copied before the controller substitution runs. -/
theorem C6_instance_types_synthesis (props cfg : Entries)
    (parts : List Value) (cn : String)
    (hcn : List.lookup "cluster_name" props = some (Value.str cn))
    (hparts : List.lookup "partitions" props = some (Value.list parts))
    (hne : parts ≠ [])
    (hok : new_config props = Except.ok cfg) :
    List.lookup "instance_types" cfg
      = some (Value.nsdict (parts.enum.map (fun ip =>
          (cn ++ "-compute-" ++ toString ip.1, from_nested ip.2)))) := by
  obtain ⟨-, -, -, h4⟩ := new_config_master props cfg cn hcn hok
  exact (h4 parts hparts).2 hne

/-- Witness for C6 on `c6props` (which pre-supplies an `instance_types`
value that gets overwritten): keys `foo-compute-0`, `foo-compute-1` map
to the converted partitions. -/
theorem C6_witness :
    List.lookup "instance_types" c6cfg
      = some (Value.nsdict
          (([Value.dict [("name", Value.str "p0"), ("network_storage", Value.list [])],
             Value.dict [("name", Value.str "p1"),
               ("network_storage", Value.list [])]] : List Value).enum.map
            (fun ip => ("foo" ++ "-compute-" ++ toString ip.1, from_nested ip.2)))) :=
  C6_instance_types_synthesis c6props c6cfg _ "foo" rfl rfl (by simp) rfl

/-- Claim C7: converting any mapping with `NSDict` leaves no raw
(unconverted) mapping anywhere in the result; forgetting the
converted/raw distinction (`toRaw`) recovers exactly the input tree, so
keys, insertion order, sequence structure and every non-mapping
non-sequence leaf are identical to the input at every level; and the
top-level keys come out in the original order. -/
theorem C7_conversion_invariant (kvs : Entries) :
    noRawB (NSDict_init kvs) = true
    ∧ toRaw (NSDict_init kvs) = toRaw (Value.dict kvs)
    ∧ (fromEntries kvs).map Prod.fst = kvs.map Prod.fst := by
  refine ⟨?_, ?_, fromEntries_keys kvs⟩
  · simp [NSDict_init, noRawB, noRaw_fromEntries kvs]
  · simp [NSDict_init, toRaw, toRaw_fromEntries kvs]

/-- Claim C8 (counterexample): with a failing metadata collaborator
(`get_metadata` returns absent), two `instance_type` accesses on the
same fresh instance trigger the external tag lookup twice — the factory
raises before `setattr` runs, nothing is cached, and the second access
re-runs it — contradicting the unconditional at-most-once claim. -/
theorem C8_counterexample :
    (runAccesses (fun _ => []) Option.none "host"
        [Access.instanceType, Access.instanceType] ⟨[], 0, 0⟩).tagCalls = 2
    ∧ ¬ ((runAccesses (fun _ => []) Option.none "host"
        [Access.instanceType, Access.instanceType] ⟨[], 0, 0⟩).tagCalls ≤ 0 + 1) :=
  ⟨rfl, by decide⟩

/-- Claim C8 (amended): over any sequence of `instance_type` and
`hostname` accesses on one `Config` instance, `hostname` triggers the
local-hostname collaborator at most once; `instance_type` triggers the
external tag lookup at most once PROVIDED the metadata lookup completes
(returns a document) — the first completed access stores the value in
the instance dict and every later access finds the stored key before the
non-data descriptor is consulted.  When the lookup fails, the factory
raises before `setattr`, nothing is ever cached, and every
`instance_type` access triggers the collaborator again — exactly once
per access. -/
theorem C8_amended (parse : String → List String) (host : String)
    (ops : List Access) (s0 : ConfigState) :
    (∀ doc : String,
      (runAccesses parse (some doc) host ops s0).tagCalls ≤ s0.tagCalls + 1)
    ∧ (∀ resp : Option String,
      (runAccesses parse resp host ops s0).hostCalls ≤ s0.hostCalls + 1)
    ∧ (List.lookup "instance_type" s0.entries = Option.none →
        (runAccesses parse Option.none host ops s0).tagCalls
          = s0.tagCalls + countIT ops) := by
  refine ⟨?_, ?_, ?_⟩
  · intro doc
    refine le_trans (runAccesses_tagCalls_le parse doc host ops s0) ?_
    split <;> omega
  · intro resp
    refine le_trans (runAccesses_hostCalls_le parse resp host ops s0) ?_
    split <;> omega
  · intro hnone
    exact runAccesses_tagCalls_failure parse host ops s0 hnone

/-- Witness for C8 (amended) on a fresh instance with three accesses:
with a completing collaborator both call counts stay at most one; with a
failing collaborator the tag lookup runs once per `instance_type`
access. -/
theorem C8_amended_witness :
    (runAccesses (fun _ => ["compute"]) (some "doc") "h"
        [Access.instanceType, Access.hostname, Access.instanceType]
        ⟨[], 0, 0⟩).tagCalls ≤ (⟨[], 0, 0⟩ : ConfigState).tagCalls + 1
    ∧ (runAccesses (fun _ => ["compute"]) (some "doc") "h"
        [Access.instanceType, Access.hostname, Access.instanceType]
        ⟨[], 0, 0⟩).hostCalls ≤ (⟨[], 0, 0⟩ : ConfigState).hostCalls + 1
    ∧ (runAccesses (fun _ => ["compute"]) Option.none "h"
        [Access.instanceType, Access.hostname, Access.instanceType]
        ⟨[], 0, 0⟩).tagCalls
      = (⟨[], 0, 0⟩ : ConfigState).tagCalls
        + countIT [Access.instanceType, Access.hostname, Access.instanceType] :=
  ⟨(C8_amended (fun _ => ["compute"]) "h"
      [Access.instanceType, Access.hostname, Access.instanceType] ⟨[], 0, 0⟩).1 "doc",
   (C8_amended (fun _ => ["compute"]) "h"
      [Access.instanceType, Access.hostname, Access.instanceType] ⟨[], 0, 0⟩).2.1
      (some "doc"),
   (C8_amended (fun _ => ["compute"]) "h"
      [Access.instanceType, Access.hostname, Access.instanceType] ⟨[], 0, 0⟩).2.2 rfl⟩

/-- Claim C9: `region` is a pure, uncached function of `zone`, recomputed
on every access: a stored `region` key is ignored (the `property` is a
data descriptor, so writing `region` into the dict does not change the
attribute read), an absent or `None` zone yields an absent region, and a
string zone yields the zone with its trailing dash-segment removed. -/
theorem C9_region (cfg : Entries) (v : Value) :
    region (setEntry cfg "region" v) = region cfg
    ∧ (List.lookup "zone" cfg = Option.none → region cfg = Except.ok Value.none)
    ∧ (List.lookup "zone" cfg = some Value.none → region cfg = Except.ok Value.none)
    ∧ (∀ s : String, List.lookup "zone" cfg = some (Value.str s) →
        region cfg
          = Except.ok (Value.str (String.intercalate "-" ((pySplit '-' s).dropLast)))) := by
  refine ⟨?_, ?_, ?_, ?_⟩
  · have hz : List.lookup "zone" (setEntry cfg "region" v) = List.lookup "zone" cfg :=
      lookup_setEntry_ne _ _ _ _ (by decide)
    simp [region, configGetattr, hz]
  · intro h
    simp [region, configGetattr, h, truthy]
  · intro h
    simp [region, configGetattr, h, truthy]
  · intro s h
    by_cases hs : s = ""
    · subst hs
      have hsplit : String.intercalate "-" ((pySplit '-' "").dropLast) = "" := rfl
      simp [region, configGetattr, h, truthy, hsplit]
    · simp [region, configGetattr, h, truthy, hs]

/-- Witness for C9 at zone `us-central1-a`, with an unrelated value
stored under the `region` key: the stored key is ignored and the region
is `us-central1`. -/
theorem C9_witness :
    region (setEntry [("zone", Value.str "us-central1-a")] "region" (Value.int 7))
      = region [("zone", Value.str "us-central1-a")]
    ∧ region [("zone", Value.str "us-central1-a")]
      = Except.ok (Value.str (String.intercalate "-"
          ((pySplit '-' "us-central1-a").dropLast))) :=
  ⟨(C9_region [("zone", Value.str "us-central1-a")] (Value.int 7)).1,
   (C9_region [("zone", Value.str "us-central1-a")] (Value.int 7)).2.2.2
     "us-central1-a" rfl⟩

/-- Claim C10 (counterexample): the restricted view built by
`save_config` does NOT share its `instance_types` entries with the live
`Config` — the `Config` constructor re-converts (re-allocates) every
nested mapping — so popping the three fields at the copy's object
identities leaves the original untouched: after the save,
`max_node_count` is still present (value 5) on the original, not absent
as the claim states. -/
theorem C10_counterexample :
    popAt (objIds (convFresh c10orig 3).1) stripFields c10orig = c10orig
    ∧ (((ivalLookup c10orig "instance_types").bind
          (fun it => ivalLookup it "foo-compute-0")).bind
        (fun e => ivalLookup e "max_node_count")) = some (IVal.scalar (Value.int 5)) :=
  ⟨rfl, rfl⟩

/-- Claim C10 (amended): `save_config` is side-effect-free on the
`Config` it serialises.  The restricted view is built by the `Config`
constructor, whose `from_nested` pass allocates fresh objects for every
nested mapping; hence the ids at which the stripping loop pops (the ids
inside the freshly-converted view) are disjoint from every id reachable
in the live config, and the heap-wide pop is the identity on it: after a
save the three fields are still present on the original, and only the
persisted document lacks them. -/
theorem C10_save_pure (cfg : IVal) (n0 : Nat) (ks : List String)
    (hbelow : idsBelowB cfg n0 = true) :
    popAt (objIds (convFresh cfg n0).1) ks cfg = cfg := by
  apply popAt_eq_self
  intro i hi hmem
  have h1 : i < n0 := idsBelow_mem cfg n0 hbelow i hi
  have h2 : n0 ≤ i := objIds_convFresh_ge cfg n0 i hmem
  omega

/-- Witness for C10 (amended) on the concrete live config `c10orig`. -/
theorem C10_save_pure_witness :
    popAt (objIds (convFresh c10orig 3).1)
      ["max_node_count", "name", "static_node_count"] c10orig = c10orig :=
  C10_save_pure c10orig 3 ["max_node_count", "name", "static_node_count"] rfl

end SlurmGcpUtil
